import Mathlib

/-!
Formal model of the pay2win-backend points ledger.

The definitions below are a shallow embedding of the route handlers of the
repository: the relational store is a `State` value holding lists of users,
promotions, transactions and events; each handler is a pure function from a
`State` (plus the request parameters and the authenticated actor) to either an
`ApiError` (the handler returned an error response before performing any
write) or a result paired with the updated `State`.  JavaScript numbers that
hold currency amounts are modelled as rationals, point balances as integers,
and timestamps as integers.
-/

namespace Pay2Win

/-- Role hierarchy of the auth middleware: regular(1) < cashier(2) <
manager(3) < superuser(4); an unknown role maps to 0, mirroring the failed
object lookup whose comparison is then false. -/
def roleHierarchy : String → Nat
  | "regular" => 1
  | "cashier" => 2
  | "manager" => 3
  | "superuser" => 4
  | _ => 0

/-- Check performed by the requireRole middleware: the actor role level must
reach the level of the minimum role of the route. -/
def requireRoleOk (minRole userRole : String) : Bool :=
  decide (roleHierarchy minRole ≤ roleHierarchy userRole)

/-- HTTP-style error produced by a handler: status code and message. -/
structure ApiError where
  status : Nat
  msg : String
deriving DecidableEq, Repr

/-- User row of the store.  Only the columns read or written by the handlers
modelled here are kept. -/
structure User where
  id : Nat
  utorid : String
  email : String
  role : String
  points : Int
  verified : Bool
  suspicious : Bool
deriving DecidableEq, Repr

/-- Promotion row.  The stored type string is "automatic" or "onetime" (the
creation route maps the request value "one-time" to "onetime" before the
insert).  The ptype field holds that stored string. -/
structure Promotion where
  id : Nat
  ptype : String
  startTime : Int
  endTime : Int
  minSpending : Option ℚ
  rate : Option ℚ
  points : Option Int
  usedBy : List Nat
deriving DecidableEq, Repr

/-- Transaction row: single table with nullable type-specific columns, as in
the source schema.  The ttype field holds the type string. -/
structure Txn where
  id : Nat
  ttype : String
  amount : Int
  spent : Option ℚ
  redeemed : Option Int
  suspicious : Bool
  ownerUserId : Nat
  creatorUserId : Nat
  relatedUserId : Option Nat
  relatedTransactionId : Option Nat
  processorUserId : Option Nat
  eventId : Option Nat
  promotionIds : List Nat
  remark : String
deriving DecidableEq, Repr

/-- Placeholder transaction used as an out-of-band default. -/
def emptyTxn : Txn :=
  { id := 0, ttype := "", amount := 0, spent := none, redeemed := none,
    suspicious := false, ownerUserId := 0, creatorUserId := 0,
    relatedUserId := none, relatedTransactionId := none,
    processorUserId := none, eventId := none, promotionIds := [], remark := "" }

/-- Event row, with its organizer and guest user-id sets. -/
structure Event where
  id : Nat
  pointsTotal : Int
  pointsAwarded : Int
  organizers : List Nat
  guests : List Nat
deriving DecidableEq, Repr

/-- The relational store. -/
structure State where
  users : List User
  promotions : List Promotion
  transactions : List Txn
  events : List Event
  nextTxnId : Nat
deriving DecidableEq, Repr

/-- findUnique by a numeric key: first row whose key matches. -/
def findBy {α : Type} (l : List α) (key : α → Nat) (i : Nat) : Option α :=
  l.find? (fun a => key a == i)

/-- update by a numeric key: rewrite the rows whose key matches. -/
def updBy {α : Type} (l : List α) (key : α → Nat) (i : Nat) (f : α → α) : List α :=
  l.map (fun a => if key a = i then f a else a)

def findUserById (s : State) (i : Nat) : Option User :=
  findBy s.users User.id i

def findUserByUtorid (s : State) (t : String) : Option User :=
  s.users.find? (fun u => u.utorid == t)

/-- prisma user.update with points increment d (a decrement is a negative d). -/
def updUserPoints (s : State) (i : Nat) (d : Int) : State :=
  { s with users := updBy s.users User.id i (fun u => { u with points := u.points + d }) }

def findTxn (s : State) (i : Nat) : Option Txn :=
  findBy s.transactions Txn.id i

def updTxn (s : State) (i : Nat) (f : Txn → Txn) : State :=
  { s with transactions := updBy s.transactions Txn.id i f }

def findPromotion (s : State) (i : Nat) : Option Promotion :=
  findBy s.promotions Promotion.id i

/-- prisma promotion.update connecting a user to the usedBy relation; the
many-to-many connect of an already related pair leaves the relation as is. -/
def connectUsedBy (s : State) (pid uid : Nat) : State :=
  { s with promotions := updBy s.promotions Promotion.id pid (fun p =>
      { p with usedBy := if uid ∈ p.usedBy then p.usedBy else p.usedBy ++ [uid] }) }

def findEvent (s : State) (i : Nat) : Option Event :=
  findBy s.events Event.id i

def updEvent (s : State) (i : Nat) (f : Event → Event) : State :=
  { s with events := updBy s.events Event.id i f }

/-- userPoints projects the balance of the user with the given id. -/
def userPoints (s : State) (i : Nat) : Option Int :=
  (findUserById s i).map User.points

def isOkE {ε α : Type} : Except ε α → Bool
  | .ok _ => true
  | .error _ => false

/-- resState projects the committed state out of a handler result. -/
def resState {α : Type} (r : Except ApiError (α × State)) : Option State :=
  match r with
  | .ok (_, s) => some s
  | .error _ => none

/-- jsRound models JavaScript Math.round: round half toward positive
infinity, so Math.round(x) = floor(x + 1/2). -/
def jsRound (q : ℚ) : ℤ := ⌊q + 1/2⌋

/-- truthyQ models the JavaScript truthiness test on a nullable numeric
column: null and 0 are falsy. -/
def truthyQ : Option ℚ → Bool
  | none => false
  | some q => q != 0

/-- truthyZ is truthiness for a nullable integer column. -/
def truthyZ : Option Int → Bool
  | none => false
  | some z => z != 0

/-- truthyStr is truthiness for an optional string: undefined and the empty
string are falsy. -/
def truthyStr : Option String → Bool
  | none => false
  | some t => t != ""

/-- promoContrib is the contribution of one applied promotion in the purchase
branch: add Math.round(spent / rate) when the rate is truthy, then add the
flat points when they are truthy. -/
def promoContrib (sp : ℚ) (p : Promotion) : Int :=
  (if truthyQ p.rate then jsRound (sp / p.rate.getD 0) else 0) +
    (if truthyZ p.points then p.points.getD 0 else 0)

/-- autoActive is the promotion.findMany query of the purchase branch: every
automatic promotion whose window contains now and whose minSpending is null
or at most the spent amount, in store order. -/
def autoActive (s : State) (now : Int) (sp : ℚ) : List Promotion :=
  s.promotions.filter (fun p =>
    p.ptype == "automatic" && decide (p.startTime ≤ now) && decide (now ≤ p.endTime) &&
      (p.minSpending.isNone || decide (p.minSpending.getD 0 ≤ sp)))

/-- validateOneTime is the per-id validation of an explicitly requested
promotion in the purchase branch, in source order: found, of one-time type,
active now, not already used by the purchasing user, and minSpending (when
truthy) not above the spent amount. -/
def validateOneTime (s : State) (uid : Nat) (sp : ℚ) (now : Int) (pid : Nat) :
    Except ApiError Promotion :=
  match findPromotion s pid with
  | none => .error ⟨400, "Promotion not found"⟩
  | some p =>
    if p.ptype ≠ "onetime" then .error ⟨400, "Promotion is not a one-time promotion"⟩
    else if now < p.startTime ∨ p.endTime < now then .error ⟨400, "Promotion is not active"⟩
    else if uid ∈ p.usedBy then .error ⟨400, "Promotion has already been used"⟩
    else if truthyQ p.minSpending ∧ sp < p.minSpending.getD 0 then
      .error ⟨400, "Minimum spending not met for promotion"⟩
    else .ok p

/-- applyExplicit is the loop over the explicitly requested promotion ids:
validate each in order and accumulate its point contribution and its id. -/
def applyExplicit (s : State) (uid : Nat) (sp : ℚ) (now : Int) :
    List Nat → Except ApiError (Int × List Nat)
  | [] => .ok (0, [])
  | pid :: rest =>
    match validateOneTime s uid sp now pid with
    | .error e => .error e
    | .ok p =>
      match applyExplicit s uid sp now rest with
      | .error e => .error e
      | .ok (z, ids) => .ok (promoContrib sp p + z, pid :: ids)

/-- explicitContribSum recomputes, from the store, the total contribution of a
list of requested promotion ids (ids that do not resolve contribute 0; on a
successful request every id resolves). -/
def explicitContribSum (s : State) (sp : ℚ) (pids : List Nat) : Int :=
  (pids.map (fun pid =>
    match findPromotion s pid with
    | some p => promoContrib sp p
    | none => 0)).sum

/-- createPurchase models the purchase branch of POST /transactions.  The
actor is identified by authId with role authRole; spent is typed as a
rational, so the typeof check of the source reduces to the positivity test.
On success it returns the created transaction row and the committed state. -/
def createPurchase (s : State) (authId : Nat) (authRole : String) (utorid : String)
    (sp : ℚ) (promotionIds : List Nat) (remark : String) (now : Int) :
    Except ApiError (Txn × State) :=
  if ¬ (authRole ∈ (["cashier", "manager", "superuser"] : List String)) then
    .error ⟨403, "Forbidden"⟩
  else if sp ≤ 0 then .error ⟨400, "spent must be a positive number"⟩
  else
    match findUserByUtorid s utorid with
    | none => .error ⟨404, "User not found"⟩
    | some user =>
      match findUserById s authId with
      | none => .error ⟨500, "Internal server error"⟩
      | some cashier =>
        let base := jsRound (sp / (0.25 : ℚ))
        let autos := autoActive s now sp
        let afterAuto := base + autos.foldl (fun acc p => acc + promoContrib sp p) 0
        match applyExplicit s user.id sp now promotionIds with
        | .error e => .error e
        | .ok (ext, extIds) =>
          let earned := afterAuto + ext
          let appliedIds := autos.map Promotion.id ++ extIds
          let txn : Txn :=
            { id := s.nextTxnId, ttype := "purchase", amount := earned,
              spent := some sp, redeemed := none, suspicious := cashier.suspicious,
              ownerUserId := user.id, creatorUserId := authId,
              relatedUserId := none, relatedTransactionId := none,
              processorUserId := none, eventId := none,
              promotionIds := appliedIds, remark := remark }
          let s1 : State :=
            { s with transactions := s.transactions ++ [txn], nextTxnId := s.nextTxnId + 1 }
          let s2 : State :=
            if cashier.suspicious then s1
            else
              promotionIds.foldl (fun st pid => connectUsedBy st pid user.id)
                (updUserPoints s1 user.id earned)
          .ok (txn, s2)

/-- createRedemptionRequest models POST /users/me/transactions: a verified
requester with sufficient balance gets a pending redemption row storing the
negated amount; no balance change happens at request time. -/
def createRedemptionRequest (s : State) (authId : Nat) (ttype : String)
    (amount : Int) (remark : String) : Except ApiError (Txn × State) :=
  if ttype ≠ "redemption" then .error ⟨400, "type must be redemption"⟩
  else if amount ≤ 0 then .error ⟨400, "amount must be a positive integer"⟩
  else
    match findUserById s authId with
    | none => .error ⟨500, "Internal server error"⟩
    | some user =>
      if ¬ user.verified then .error ⟨403, "User must be verified"⟩
      else if user.points < amount then .error ⟨400, "Insufficient points"⟩
      else
        let txn : Txn :=
          { id := s.nextTxnId, ttype := "redemption", amount := -amount,
            spent := none, redeemed := none, suspicious := false,
            ownerUserId := authId, creatorUserId := authId,
            relatedUserId := none, relatedTransactionId := none,
            processorUserId := none, eventId := none,
            promotionIds := [], remark := remark }
        .ok (txn, { s with transactions := s.transactions ++ [txn],
                           nextTxnId := s.nextTxnId + 1 })

/-- createTransfer models POST /users/:userId/transactions: a verified sender
with sufficient balance sends amount points to a distinct existing recipient;
two linked transfer rows are created, then the sender is decremented and the
recipient incremented.  It returns both created rows. -/
def createTransfer (s : State) (authId recipientId : Nat) (ttype : String)
    (amount : Int) (remark : String) : Except ApiError ((Txn × Txn) × State) :=
  if ttype ≠ "transfer" then .error ⟨400, "type must be transfer"⟩
  else if amount ≤ 0 then .error ⟨400, "amount must be a positive integer"⟩
  else if authId = recipientId then .error ⟨400, "Cannot transfer to yourself"⟩
  else
    match findUserById s authId with
    | none => .error ⟨500, "Internal server error"⟩
    | some sender =>
      if ¬ sender.verified then .error ⟨403, "Sender must be verified"⟩
      else if sender.points < amount then .error ⟨400, "Insufficient points"⟩
      else
        match findUserById s recipientId with
        | none => .error ⟨404, "Recipient not found"⟩
        | some _recipient =>
          let t1 : Txn :=
            { id := s.nextTxnId, ttype := "transfer", amount := -amount,
              spent := none, redeemed := none, suspicious := false,
              ownerUserId := authId, creatorUserId := authId,
              relatedUserId := some recipientId, relatedTransactionId := none,
              processorUserId := none, eventId := none,
              promotionIds := [], remark := remark }
          let t2 : Txn :=
            { id := s.nextTxnId + 1, ttype := "transfer", amount := amount,
              spent := none, redeemed := none, suspicious := false,
              ownerUserId := recipientId, creatorUserId := authId,
              relatedUserId := some authId, relatedTransactionId := none,
              processorUserId := none, eventId := none,
              promotionIds := [], remark := remark }
          let s1 : State :=
            { s with transactions := s.transactions ++ [t1, t2],
                     nextTxnId := s.nextTxnId + 2 }
          .ok ((t1, t2), updUserPoints (updUserPoints s1 authId (-amount)) recipientId amount)

/-- setSuspicious models PATCH /transactions/:transactionId/suspicious
(manager or above via the route middleware).  The handler looks up the
transaction with no check on its type, stores the new flag, and on a
true-to-false transition credits the stored amount back to the owner and
marks the referenced one-time promotions used by the owner, while a
false-to-true transition removes the stored amount from the owner.  The
owner row is part of the include of the source query; its absence would be a
crash there and is surfaced as a 500 here. -/
def setSuspicious (s : State) (authRole : String) (txId : Nat) (newVal : Bool) :
    Except ApiError (Txn × State) :=
  if ¬ requireRoleOk "manager" authRole then .error ⟨403, "Insufficient permissions"⟩
  else
    match findTxn s txId with
    | none => .error ⟨404, "Transaction not found"⟩
    | some t =>
      match findUserById s t.ownerUserId with
      | none => .error ⟨500, "Internal server error"⟩
      | some _owner =>
        let s1 := updTxn s txId (fun tr => { tr with suspicious := newVal })
        let s2 :=
          if t.suspicious ∧ ¬ newVal then
            (s.promotions.filter (fun p =>
                decide (p.id ∈ t.promotionIds) && p.ptype == "onetime")).foldl
              (fun (st : State) (p : Promotion) => connectUsedBy st p.id t.ownerUserId)
              (updUserPoints s1 t.ownerUserId t.amount)
          else if ¬ t.suspicious ∧ newVal then
            updUserPoints s1 t.ownerUserId (-t.amount)
          else s1
        .ok ({ t with suspicious := newVal }, s2)

/-- processRedemption models PATCH /transactions/:transactionId/processed
(cashier or above via the route middleware, processed must be true): an
unprocessed redemption gets its processor and redeemed fields set and the
owner balance is decremented by the absolute stored amount, with no
sufficiency check.  The owner row is part of the include of the source
query; its absence would be a crash there and is surfaced as a 500 here. -/
def processRedemption (s : State) (authId : Nat) (authRole : String) (txId : Nat)
    (processed : Bool) : Except ApiError (Txn × State) :=
  if ¬ requireRoleOk "cashier" authRole then .error ⟨403, "Insufficient permissions"⟩
  else if processed ≠ true then .error ⟨400, "processed must be true"⟩
  else
    match findTxn s txId with
    | none => .error ⟨404, "Transaction not found"⟩
    | some t =>
      if t.ttype ≠ "redemption" then .error ⟨400, "Transaction is not a redemption"⟩
      else if t.processorUserId ≠ none then .error ⟨400, "Redemption already processed"⟩
      else
        match findUserById s t.ownerUserId with
        | none => .error ⟨500, "Internal server error"⟩
        | some _owner =>
          let s1 := updTxn s txId (fun tr =>
            { tr with processorUserId := some authId, redeemed := some |t.amount| })
          .ok ({ t with processorUserId := some authId, redeemed := some |t.amount| },
               updUserPoints s1 t.ownerUserId (-|t.amount|))

/-- awardGuests is the broadcast loop of the event-transaction handler: for
each guest in order, create one event transaction row and increment the guest
balance. -/
def awardGuests (amount : Int) (authId evtId : Nat) (remark : String) :
    List Nat → State → State × List Txn
  | [], st => (st, [])
  | g :: gs, st =>
    let t : Txn :=
      { id := st.nextTxnId, ttype := "event", amount := amount,
        spent := none, redeemed := none, suspicious := false,
        ownerUserId := g, creatorUserId := authId,
        relatedUserId := none, relatedTransactionId := none,
        processorUserId := none, eventId := some evtId,
        promotionIds := [], remark := remark }
    let st1 : State :=
      { st with transactions := st.transactions ++ [t], nextTxnId := st.nextTxnId + 1 }
    let (stF, ts) := awardGuests amount authId evtId remark gs (updUserPoints st1 g amount)
    (stF, t :: ts)

/-- createEventTransaction models POST /events/:eventId/transactions: the
actor must be a manager or above or an organizer of the event; with a truthy
utorid the award goes to that guest after the remaining-budget check, and
with no utorid the per-guest amount times the guest count is checked against
the remaining budget before awarding every guest. -/
def createEventTransaction (s : State) (authId : Nat) (authRole : String)
    (evtId : Nat) (ttype : String) (utorid : Option String) (amount : Int)
    (remark : String) : Except ApiError (List Txn × State) :=
  if ttype ≠ "event" then .error ⟨400, "Type must be event"⟩
  else if amount ≤ 0 then .error ⟨400, "Amount must be a positive integer"⟩
  else
    match findEvent s evtId with
    | none => .error ⟨404, "Event not found"⟩
    | some ev =>
      if ¬ ((authRole = "manager" ∨ authRole = "superuser") ∨ authId ∈ ev.organizers) then
        .error ⟨403, "Insufficient permissions"⟩
      else
        let pointsRemaining := ev.pointsTotal - ev.pointsAwarded
        if truthyStr utorid then
          match findUserByUtorid s (utorid.getD "") with
          | none => .error ⟨404, "User not found"⟩
          | some user =>
            if ¬ (user.id ∈ ev.guests) then .error ⟨400, "User is not a guest"⟩
            else if pointsRemaining < amount then
              .error ⟨400, "Insufficient points remaining"⟩
            else
              let t : Txn :=
                { id := s.nextTxnId, ttype := "event", amount := amount,
                  spent := none, redeemed := none, suspicious := false,
                  ownerUserId := user.id, creatorUserId := authId,
                  relatedUserId := none, relatedTransactionId := none,
                  processorUserId := none, eventId := some evtId,
                  promotionIds := [], remark := remark }
              let s1 : State :=
                { s with transactions := s.transactions ++ [t],
                         nextTxnId := s.nextTxnId + 1 }
              let s2 := updUserPoints s1 user.id amount
              .ok ([t], updEvent s2 evtId (fun e =>
                { e with pointsAwarded := e.pointsAwarded + amount }))
        else
          let totalAmount := amount * ev.guests.length
          if pointsRemaining < totalAmount then
            .error ⟨400, "Insufficient points remaining"⟩
          else
            let (sF, ts) := awardGuests amount authId evtId remark ev.guests s
            .ok (ts, updEvent sF evtId (fun e =>
              { e with pointsAwarded := e.pointsAwarded + totalAmount }))

/-- emailLocalCharOk is the character class of the local part of the email
format check of the user routes. -/
def emailLocalCharOk (c : Char) : Bool :=
  c.isAlpha || c.isDigit || c = '.' || c = '_' || c = '%' || c = '+' || c = '-'

/-- emailFormatValid models the anchored email regular expression of the user
routes: a nonempty local part over the allowed characters, then the utoronto
domain with an optional mail subdomain. -/
def emailFormatValid (e : String) : Bool :=
  match e.splitOn "@" with
  | [lp, domain] =>
    (!lp.isEmpty) && lp.toList.all emailLocalCharOk &&
      (domain == "utoronto.ca" || domain == "mail.utoronto.ca")
  | _ => false

/-- validateEmailField models the email branch of PATCH /users/:userId:
format check, then uniqueness among the other users. -/
def validateEmailField (s : State) (targetUserId : Nat) (email : Option String) :
    Except ApiError (Option String) :=
  match email with
  | none => .ok none
  | some e =>
    if ¬ emailFormatValid e then .error ⟨400, "Invalid email format"⟩
    else if s.users.any (fun u => u.email == e && u.id != targetUserId) then
      .error ⟨400, "Email already in use"⟩
    else .ok (some e)

/-- validateVerifiedField models the verified branch of PATCH /users/:userId:
only the value true is accepted. -/
def validateVerifiedField : Option Bool → Except ApiError (Option Bool)
  | none => .ok none
  | some v => if v ≠ true then .error ⟨400, "Verified must be true"⟩ else .ok (some true)

/-- validateRoleField models the role branch of PATCH /users/:userId: the
role string must be valid; a manager actor may only assign cashier or
regular; assigning cashier is refused when the target would be suspicious at
commit time (the requested suspicious value when given, else the stored
one), and otherwise clears the suspicious flag.  It returns the role update
and the resulting suspicious update. -/
def validateRoleField (authRole : String) (target : User) (susp : Option Bool)
    (role : Option String) : Except ApiError (Option String × Option Bool) :=
  match role with
  | none => .ok (none, susp)
  | some r =>
    if ¬ (r ∈ (["regular", "cashier", "manager", "superuser"] : List String)) then
      .error ⟨400, "Invalid role"⟩
    else if authRole = "manager" ∧ ¬ (r = "cashier" ∨ r = "regular") then
      .error ⟨403, "Insufficient permissions"⟩
    else if r = "cashier" then
      if susp.getD target.suspicious then
        .error ⟨400, "Cannot promote suspicious user to cashier"⟩
      else .ok (some r, some false)
    else .ok (some r, susp)

/-- patchUser models PATCH /users/:userId (manager or above via the route
middleware).  The suspicious field is typed as a boolean here, so the typeof
check of the source always passes; the branches run in source order and the
update is applied only when at least one field was set. -/
def patchUser (s : State) (authRole : String) (targetUserId : Nat)
    (email : Option String) (verified : Option Bool) (susp : Option Bool)
    (role : Option String) : Except ApiError State :=
  if ¬ requireRoleOk "manager" authRole then .error ⟨403, "Insufficient permissions"⟩
  else
    match findUserById s targetUserId with
    | none => .error ⟨404, "User not found"⟩
    | some target =>
      match validateEmailField s targetUserId email with
      | .error e => .error e
      | .ok emailUpd =>
        match validateVerifiedField verified with
        | .error e => .error e
        | .ok verifiedUpd =>
          match validateRoleField authRole target susp role with
          | .error e => .error e
          | .ok (roleUpd, suspUpd) =>
            if emailUpd = none ∧ verifiedUpd = none ∧ suspUpd = none ∧ roleUpd = none then
              .error ⟨400, "No fields to update"⟩
            else
              .ok { s with users := updBy s.users User.id targetUserId (fun u =>
                { u with email := emailUpd.getD u.email,
                         verified := verifiedUpd.getD u.verified,
                         suspicious := suspUpd.getD u.suspicious,
                         role := roleUpd.getD u.role }) }

/-- pointsAfter projects the balance of a user out of a handler result. -/
def pointsAfter {α : Type} (r : Except ApiError (α × State)) (uid : Nat) : Option Int :=
  match r with
  | .ok (_, s) => userPoints s uid
  | .error _ => none

/-- amountAfter projects the amount of a created transaction out of a
handler result. -/
def amountAfter (r : Except ApiError (Txn × State)) : Option Int :=
  match r with
  | .ok (t, _) => some t.amount
  | .error _ => none

/-- okVal projects the response value out of a handler result. -/
def okVal {α : Type} : Except ApiError (α × State) → Option α
  | .ok (v, _) => some v
  | .error _ => none

/-- txnsAfter projects the committed transaction table out of a handler
result. -/
def txnsAfter {α : Type} : Except ApiError (α × State) → Option (List Txn)
  | .ok (_, s) => some s.transactions
  | .error _ => none

/-- balancesNonneg states that every stored balance is nonnegative. -/
def balancesNonneg (s : State) : Prop := ∀ u ∈ s.users, 0 ≤ u.points

/-- usersNodup states that user ids are unique, as for a primary key. -/
def usersNodup (s : State) : Prop := (s.users.map User.id).Nodup

/-- promoWF holds for promotion rows as the promotion-creation route writes
them: a stored rate is positive and stored flat points are nonnegative. -/
def promoWF (p : Promotion) : Bool :=
  (match p.rate with | none => true | some r => decide (0 < r)) &&
    (match p.points with | none => true | some z => decide (0 ≤ z))

/-- promosWF lifts promoWF to the whole store. -/
def promosWF (s : State) : Prop := ∀ p ∈ s.promotions, promoWF p = true

section StoreLemmas

variable {α : Type}

theorem findBy_updBy_self (l : List α) (key : α → Nat) (i : Nat) (f : α → α)
    (hf : ∀ a, key (f a) = key a) :
    findBy (updBy l key i f) key i = (findBy l key i).map f := by
  induction l with
  | nil => rfl
  | cons a t ih =>
    show findBy ((if key a = i then f a else a) :: updBy t key i f) key i = _
    by_cases h : key a = i
    · rw [if_pos h]
      unfold findBy
      rw [List.find?_cons_of_pos _ (by simp [hf a, h]),
        List.find?_cons_of_pos _ (by simp [h])]
      rfl
    · rw [if_neg h]
      unfold findBy
      rw [List.find?_cons_of_neg _ (by simp [h]),
        List.find?_cons_of_neg _ (by simp [h])]
      exact ih

theorem findBy_updBy_ne (l : List α) (key : α → Nat) (i j : Nat) (f : α → α)
    (hf : ∀ a, key (f a) = key a) (hij : j ≠ i) :
    findBy (updBy l key i f) key j = findBy l key j := by
  induction l with
  | nil => rfl
  | cons a t ih =>
    show findBy ((if key a = i then f a else a) :: updBy t key i f) key j = _
    by_cases h : key a = i
    · have hja : key a ≠ j := fun hc => hij (hc ▸ h.symm ▸ rfl)
      rw [if_pos h]
      unfold findBy
      rw [List.find?_cons_of_neg _ (by simp [hf a, h]; omega),
        List.find?_cons_of_neg _ (by simp; omega)]
      exact ih
    · by_cases h2 : key a = j
      · rw [if_neg h]
        unfold findBy
        rw [List.find?_cons_of_pos _ (by simp [h2]),
          List.find?_cons_of_pos _ (by simp [h2])]
      · rw [if_neg h]
        unfold findBy
        rw [List.find?_cons_of_neg _ (by simp [h2]),
          List.find?_cons_of_neg _ (by simp [h2])]
        exact ih

theorem findBy_mem {l : List α} {key : α → Nat} {i : Nat} {a : α}
    (h : findBy l key i = some a) : a ∈ l ∧ key a = i := by
  refine ⟨List.mem_of_find?_eq_some h, ?_⟩
  have := List.find?_some h
  simpa using this

theorem findBy_unique {l : List α} {key : α → Nat} {i : Nat} {u a : α}
    (hnd : (l.map key).Nodup) (h : findBy l key i = some u)
    (ha : a ∈ l) (hk : key a = i) : a = u := by
  induction l with
  | nil => cases ha
  | cons b t ih =>
    rw [List.map_cons, List.nodup_cons] at hnd
    by_cases hb : key b = i
    · have hu : b = u := by
        unfold findBy at h
        rw [List.find?_cons_of_pos _ (by simp [hb])] at h
        exact Option.some.inj h
      rcases List.mem_cons.mp ha with rfl | hat
      · exact hu
      · exfalso
        apply hnd.1
        have hmap : key a ∈ List.map key t := List.mem_map_of_mem key hat
        rw [hk, ← hb] at hmap
        exact hmap
    · rcases List.mem_cons.mp ha with rfl | hat
      · exact absurd hk hb
      · have h' : findBy t key i = some u := by
          unfold findBy at h ⊢
          rwa [List.find?_cons_of_neg _ (by simp [hb])] at h
        exact ih hnd.2 h' hat

theorem nonneg_updUserPoints (s : State) (i : Nat) (d : Int)
    (h : balancesNonneg s)
    (hd : ∀ u ∈ s.users, u.id = i → 0 ≤ u.points + d) :
    balancesNonneg (updUserPoints s i d) := by
  intro u hu
  simp only [updUserPoints, updBy, List.mem_map] at hu
  obtain ⟨v, hv, rfl⟩ := hu
  by_cases hvi : v.id = i
  · simpa [hvi] using hd v hv hvi
  · simpa [hvi] using h v hv

theorem foldl_users_eq {β : Type} (f : State → β → State)
    (hf : ∀ st b, (f st b).users = st.users) (l : List β) (st : State) :
    (l.foldl f st).users = st.users := by
  induction l generalizing st with
  | nil => rfl
  | cons b t ih => rw [List.foldl_cons, ih, hf]

theorem foldl_transactions_eq {β : Type} (f : State → β → State)
    (hf : ∀ st b, (f st b).transactions = st.transactions) (l : List β) (st : State) :
    (l.foldl f st).transactions = st.transactions := by
  induction l generalizing st with
  | nil => rfl
  | cons b t ih => rw [List.foldl_cons, ih, hf]

theorem foldl_events_eq {β : Type} (f : State → β → State)
    (hf : ∀ st b, (f st b).events = st.events) (l : List β) (st : State) :
    (l.foldl f st).events = st.events := by
  induction l generalizing st with
  | nil => rfl
  | cons b t ih => rw [List.foldl_cons, ih, hf]

theorem connectUsedBy_users (st : State) (pid uid : Nat) :
    (connectUsedBy st pid uid).users = st.users := rfl

theorem connectUsedBy_transactions (st : State) (pid uid : Nat) :
    (connectUsedBy st pid uid).transactions = st.transactions := rfl

theorem connectUsedBy_events (st : State) (pid uid : Nat) :
    (connectUsedBy st pid uid).events = st.events := rfl

end StoreLemmas

section RulesLemmas

theorem jsRound_nonneg {q : ℚ} (h : 0 ≤ q) : 0 ≤ jsRound q := by
  unfold jsRound
  rw [Int.le_floor]
  push_cast
  linarith

theorem promoContrib_nonneg {sp : ℚ} (hsp : 0 < sp) {p : Promotion}
    (hp : promoWF p = true) : 0 ≤ promoContrib sp p := by
  unfold promoWF at hp
  rw [Bool.and_eq_true] at hp
  unfold promoContrib
  have h1 : 0 ≤ (if truthyQ p.rate then jsRound (sp / p.rate.getD 0) else 0) := by
    by_cases h : truthyQ p.rate = true
    · rw [if_pos h]
      unfold truthyQ at h
      match hr : p.rate with
      | none => rw [hr] at h; cases h
      | some r =>
        rw [hr] at hp h
        have hrpos : 0 < r := by simpa using hp.1
        apply jsRound_nonneg
        positivity
    · rw [if_neg h]
  have h2 : 0 ≤ (if truthyZ p.points then p.points.getD 0 else 0) := by
    by_cases h : truthyZ p.points = true
    · rw [if_pos h]
      unfold truthyZ at h
      match hz : p.points with
      | none => rw [hz] at h; cases h
      | some z =>
        rw [hz] at hp h
        simpa using hp.2
    · rw [if_neg h]
  omega

theorem foldl_contrib_nonneg (sp : ℚ) (l : List Promotion)
    (h : ∀ p ∈ l, 0 ≤ promoContrib sp p) :
    ∀ init : Int, 0 ≤ init → 0 ≤ l.foldl (fun acc p => acc + promoContrib sp p) init := by
  induction l with
  | nil => intro init h0; simpa using h0
  | cons p t ih =>
    intro init h0
    rw [List.foldl_cons]
    refine ih (fun q hq => h q (List.mem_cons_of_mem p hq)) _ ?_
    have := h p (List.mem_cons_self p t)
    omega

theorem validateOneTime_ok {s : State} {uid : Nat} {sp : ℚ} {now : Int}
    {pid : Nat} {p : Promotion}
    (h : validateOneTime s uid sp now pid = .ok p) :
    findPromotion s pid = some p ∧ uid ∉ p.usedBy := by
  match hf : findPromotion s pid with
  | none => simp only [validateOneTime, hf] at h; cases h
  | some q =>
    simp only [validateOneTime, hf] at h
    split_ifs at h with h1 h2 h3 h4
    cases h
    exact ⟨rfl, h3⟩

theorem validateOneTime_err_of_used {s : State} {uid : Nat} {sp : ℚ} {now : Int}
    {pid : Nat} {p : Promotion}
    (hp : findPromotion s pid = some p) (hused : uid ∈ p.usedBy) :
    ∀ q, validateOneTime s uid sp now pid ≠ .ok q := by
  intro q hq
  obtain ⟨hf, hnot⟩ := validateOneTime_ok hq
  rw [hf] at hp
  cases hp
  exact hnot hused

theorem applyExplicit_ok {s : State} {uid : Nat} {sp : ℚ} {now : Int} :
    ∀ {pids : List Nat} {z : Int} {ids : List Nat},
      applyExplicit s uid sp now pids = .ok (z, ids) →
      z = explicitContribSum s sp pids ∧ ids = pids := by
  intro pids
  induction pids with
  | nil =>
    intro z ids h
    unfold applyExplicit at h
    cases h
    simp [explicitContribSum]
  | cons pid rest ih =>
    intro z ids h
    match hv : validateOneTime s uid sp now pid with
    | .error e => simp only [applyExplicit, hv] at h; cases h
    | .ok p =>
      match hr : applyExplicit s uid sp now rest with
      | .error e => simp only [applyExplicit, hv, hr] at h; cases h
      | .ok (z0, ids0) =>
        simp only [applyExplicit, hv, hr] at h
        cases h
        obtain ⟨hz0, hids0⟩ := ih hr
        obtain ⟨hf, _⟩ := validateOneTime_ok hv
        constructor
        · rw [hz0]
          simp [explicitContribSum, hf]
        · rw [hids0]

theorem applyExplicit_ok_nonneg {s : State} {uid : Nat} {sp : ℚ} {now : Int}
    (hsp : 0 < sp) (hwf : promosWF s) :
    ∀ {pids : List Nat} {z : Int} {ids : List Nat},
      applyExplicit s uid sp now pids = .ok (z, ids) → 0 ≤ z := by
  intro pids
  induction pids with
  | nil =>
    intro z ids h
    simp only [applyExplicit] at h
    cases h
    omega
  | cons pid rest ih =>
    intro z ids h
    match hv : validateOneTime s uid sp now pid with
    | .error e => simp only [applyExplicit, hv] at h; cases h
    | .ok p =>
      match hr : applyExplicit s uid sp now rest with
      | .error e => simp only [applyExplicit, hv, hr] at h; cases h
      | .ok (z0, ids0) =>
        simp only [applyExplicit, hv, hr] at h
        cases h
        have h1 : 0 ≤ promoContrib sp p := by
          obtain ⟨hf, _⟩ := validateOneTime_ok hv
          exact promoContrib_nonneg hsp (hwf p (findBy_mem hf).1)
        have h2 : 0 ≤ z0 := ih hr
        omega

theorem applyExplicit_err_of_used {s : State} {uid : Nat} {sp : ℚ} {now : Int}
    {pid : Nat} {p : Promotion}
    (hp : findPromotion s pid = some p) (hused : uid ∈ p.usedBy) :
    ∀ {pids : List Nat}, pid ∈ pids →
      isOkE (applyExplicit s uid sp now pids) = false := by
  intro pids
  induction pids with
  | nil => intro h; cases h
  | cons q rest ih =>
    intro hmem
    unfold applyExplicit
    match hv : validateOneTime s uid sp now q with
    | .error e => simp [isOkE]
    | .ok r =>
      rcases List.mem_cons.mp hmem with rfl | hrest
      · exact absurd hv (validateOneTime_err_of_used hp hused r)
      · match hr : applyExplicit s uid sp now rest with
        | .error e => simp [isOkE]
        | .ok (z0, ids0) =>
          have := ih hrest
          rw [hr] at this
          simp [isOkE] at this

end RulesLemmas

section StateLemmas

theorem findUserById_congr (X Y : State) (h : X.users = Y.users) (i : Nat) :
    findUserById X i = findUserById Y i := by
  unfold findUserById findBy
  rw [h]

theorem findTxn_congr (X Y : State) (h : X.transactions = Y.transactions) (i : Nat) :
    findTxn X i = findTxn Y i := by
  unfold findTxn findBy
  rw [h]

theorem findEvent_congr (X Y : State) (h : X.events = Y.events) (i : Nat) :
    findEvent X i = findEvent Y i := by
  unfold findEvent findBy
  rw [h]

theorem userPoints_updUserPoints_self (s : State) (i : Nat) (d : Int) :
    userPoints (updUserPoints s i d) i = (userPoints s i).map (fun z => z + d) := by
  unfold userPoints updUserPoints findUserById
  dsimp only
  rw [findBy_updBy_self s.users User.id i
    (fun u => { u with points := u.points + d }) (fun a => rfl)]
  cases findBy s.users User.id i <;> rfl

theorem userPoints_updUserPoints_ne (s : State) (i j : Nat) (d : Int) (h : j ≠ i) :
    userPoints (updUserPoints s i d) j = userPoints s j := by
  unfold userPoints updUserPoints findUserById
  dsimp only
  rw [findBy_updBy_ne s.users User.id i j
    (fun u => { u with points := u.points + d }) (fun a => rfl) h]

theorem findUserById_updUserPoints_self (s : State) (i : Nat) (d : Int) :
    findUserById (updUserPoints s i d) i =
      (findUserById s i).map (fun u => { u with points := u.points + d }) := by
  unfold updUserPoints findUserById
  exact findBy_updBy_self _ _ _ _ (fun a => rfl)

theorem findTxn_updTxn_self (s : State) (tid : Nat) (f : Txn → Txn)
    (hf : ∀ t, (f t).id = t.id) :
    findTxn (updTxn s tid f) tid = (findTxn s tid).map f := by
  unfold findTxn updTxn
  exact findBy_updBy_self _ _ _ _ hf

theorem findEvent_updEvent_self (s : State) (eid : Nat) (f : Event → Event)
    (hf : ∀ e, (f e).id = e.id) :
    findEvent (updEvent s eid f) eid = (findEvent s eid).map f := by
  unfold findEvent updEvent
  exact findBy_updBy_self _ _ _ _ hf

theorem foldl_add_eq_sum {α : Type} (f : α → Int) (l : List α) :
    ∀ init : Int, l.foldl (fun acc p => acc + f p) init = init + (l.map f).sum := by
  induction l with
  | nil => intro init; simp
  | cons a t ih =>
    intro init
    rw [List.foldl_cons, ih, List.map_cons, List.sum_cons]
    omega

theorem awardGuests_users_nonneg (am : Int) (aid evtId : Nat) (rm : String)
    (gs : List Nat) (st : State) (h : balancesNonneg st) (ham : 0 ≤ am) :
    balancesNonneg (awardGuests am aid evtId rm gs st).1 := by
  induction gs generalizing st with
  | nil => exact h
  | cons g t ih =>
    simp only [awardGuests]
    apply ih
    apply nonneg_updUserPoints
    · exact h
    · intro u hu _
      have := h u hu
      omega

theorem awardGuests_events (am : Int) (aid evtId : Nat) (rm : String)
    (gs : List Nat) (st : State) :
    (awardGuests am aid evtId rm gs st).1.events = st.events := by
  induction gs generalizing st with
  | nil => rfl
  | cons g t ih => simp only [awardGuests]; rw [ih]; rfl

/-- ssDelta is the balance adjustment the suspicious-flag handler applies to
the owner: credit the amount on true-to-false, debit it on false-to-true,
nothing otherwise. -/
def ssDelta (t : Txn) (nv : Bool) : Int :=
  if t.suspicious ∧ ¬ nv then t.amount
  else if ¬ t.suspicious ∧ nv then -t.amount else 0

theorem setSuspicious_spec (s : State) (ar : String) (tid : Nat) (nv : Bool)
    (t : Txn) (u : User)
    (hr : requireRoleOk "manager" ar = true)
    (ht : findTxn s tid = some t)
    (hu : findUserById s t.ownerUserId = some u) :
    ∃ s', setSuspicious s ar tid nv = .ok ({ t with suspicious := nv }, s') ∧
      findTxn s' tid = some { t with suspicious := nv } ∧
      findUserById s' t.ownerUserId = some { u with points := u.points + ssDelta t nv } := by
  have hfind1 : findTxn (updTxn s tid (fun tr => { tr with suspicious := nv })) tid =
      some { t with suspicious := nv } := by
    rw [findTxn_updTxn_self s tid (fun tr => { tr with suspicious := nv }) (fun tr => rfl), ht]
    rfl
  have huser1 : findUserById (updTxn s tid (fun tr => { tr with suspicious := nv }))
      t.ownerUserId = some u :=
    (findUserById_congr (updTxn s tid (fun tr => { tr with suspicious := nv })) s rfl
      t.ownerUserId).trans hu
  unfold setSuspicious
  rw [if_neg (by simp [hr])]
  simp only [ht, hu]
  by_cases hb1 : t.suspicious ∧ ¬ nv
  · rw [if_pos hb1]
    refine ⟨_, rfl, ?_, ?_⟩
    · refine Eq.trans (findTxn_congr _
        (updTxn s tid (fun tr => { tr with suspicious := nv })) ?_ tid) hfind1
      exact (foldl_transactions_eq
        (fun (st : State) (p : Promotion) => connectUsedBy st p.id t.ownerUserId)
        (fun st p => rfl) _ _).trans rfl
    · refine Eq.trans (findUserById_congr _ (updUserPoints
          (updTxn s tid (fun tr => { tr with suspicious := nv })) t.ownerUserId t.amount)
          ?_ t.ownerUserId) ?_
      · exact foldl_users_eq
          (fun (st : State) (p : Promotion) => connectUsedBy st p.id t.ownerUserId)
          (fun st p => rfl) _ _
      · rw [findUserById_updUserPoints_self, huser1]
        unfold ssDelta
        rw [if_pos hb1]
        rfl
  · rw [if_neg hb1]
    by_cases hb2 : ¬ t.suspicious ∧ nv
    · rw [if_pos hb2]
      refine ⟨_, rfl, ?_, ?_⟩
      · exact (findTxn_congr _ (updTxn s tid (fun tr => { tr with suspicious := nv }))
          rfl tid).trans hfind1
      · rw [findUserById_updUserPoints_self, huser1]
        unfold ssDelta
        rw [if_neg hb1, if_pos hb2]
        rfl
    · rw [if_neg hb2]
      refine ⟨_, rfl, hfind1, ?_⟩
      rw [huser1]
      unfold ssDelta
      rw [if_neg hb1, if_neg hb2]
      simp

theorem userPoints_congr (X Y : State) (h : X.users = Y.users) (i : Nat) :
    userPoints X i = userPoints Y i := by
  unfold userPoints
  rw [findUserById_congr X Y h]

end StateLemmas

/-! Concrete fixture rows and stores used by the witnesses below. -/

def c8U : User :=
  { id := 1, utorid := "alice001", email := "alice@utoronto.ca", role := "regular",
    points := 150, verified := true, suspicious := false }

def c8S : State :=
  { users := [c8U], promotions := [], transactions := [], events := [], nextTxnId := 1 }

def c8T : Txn :=
  { id := 1, ttype := "redemption", amount := -100, spent := none, redeemed := none,
    suspicious := false, ownerUserId := 1, creatorUserId := 1, relatedUserId := none,
    relatedTransactionId := none, processorUserId := none, eventId := none,
    promotionIds := [], remark := "" }

def c8S2 : State := { c8S with transactions := [c8T], nextTxnId := 2 }

/-- C8: a redemption request whose amount exceeds the verified requester's
balance fails with the insufficient-points error (and, the result being an
error, no row is created and no balance changes); an accepted request stores
amount = minus the requested amount, leaves every user row unchanged, and
appends exactly the one new pending row. -/
theorem c8_redemption_request :
    (∀ (s : State) (aid : Nat) (am : Int) (rm : String) (u : User),
        findUserById s aid = some u → u.verified = true → 0 < am → u.points < am →
        createRedemptionRequest s aid "redemption" am rm =
          .error ⟨400, "Insufficient points"⟩) ∧
    (∀ (s : State) (aid : Nat) (ty : String) (am : Int) (rm : String) (t : Txn)
        (s' : State),
        createRedemptionRequest s aid ty am rm = .ok (t, s') →
        t.amount = -am ∧ s'.users = s.users ∧
        s'.transactions = s.transactions ++ [t]) := by
  constructor
  · intro s aid am rm u hu hv hpos hins
    unfold createRedemptionRequest
    rw [if_neg (by simp), if_neg (by omega)]
    simp only [hu]
    rw [if_neg (by simp [hv]), if_pos hins]
  · intro s aid ty am rm t s' h
    unfold createRedemptionRequest at h
    split_ifs at h with h1 h2
    rcases hu : findUserById s aid with _ | u
    · simp only [hu] at h
      cases h
    · simp only [hu] at h
      split_ifs at h with h3 h4
      cases h
      exact ⟨rfl, rfl, rfl⟩

theorem c8_redemption_request_witness :
    (findUserById c8S 1 = some c8U ∧ c8U.verified = true ∧ (0 : Int) < 200 ∧
      c8U.points < 200 ∧
      createRedemptionRequest c8S 1 "redemption" 200 "" =
        .error ⟨400, "Insufficient points"⟩) ∧
    (createRedemptionRequest c8S 1 "redemption" 100 "" = .ok (c8T, c8S2) ∧
      c8T.amount = -100 ∧ c8S2.users = c8S.users ∧
      c8S2.transactions = c8S.transactions ++ [c8T]) := by
  constructor
  · exact ⟨by decide, by decide, by decide, by decide,
      c8_redemption_request.1 c8S 1 200 "" c8U (by decide) (by decide) (by decide)
        (by decide)⟩
  · have hok : createRedemptionRequest c8S 1 "redemption" 100 "" = .ok (c8T, c8S2) := by
      rfl
    exact ⟨hok, c8_redemption_request.2 c8S 1 "redemption" 100 "" c8T c8S2 hok⟩

def c10U : User :=
  { id := 1, utorid := "alice001", email := "alice@utoronto.ca", role := "regular",
    points := 10, verified := true, suspicious := false }

def c10T : Txn :=
  { id := 1, ttype := "redemption", amount := -50, spent := none, redeemed := none,
    suspicious := false, ownerUserId := 1, creatorUserId := 1, relatedUserId := none,
    relatedTransactionId := none, processorUserId := none, eventId := none,
    promotionIds := [], remark := "" }

def c10S : State :=
  { users := [c10U], promotions := [], transactions := [c10T], events := [],
    nextTxnId := 2 }

/-- C10: processing an unprocessed redemption by a cashier-or-above actor
always succeeds, with no sufficiency check on the owner's balance: the
processor and redeemed fields are set and the owner is decremented by the
absolute stored amount, possibly below zero. -/
theorem c10_process_redemption (s : State) (aid : Nat) (ar : String) (tid : Nat)
    (t : Txn) (u : User)
    (hr : requireRoleOk "cashier" ar = true)
    (ht : findTxn s tid = some t) (hty : t.ttype = "redemption")
    (hproc : t.processorUserId = none)
    (hu : findUserById s t.ownerUserId = some u) :
    processRedemption s aid ar tid true =
      .ok ({ t with processorUserId := some aid, redeemed := some |t.amount| },
        updUserPoints
          (updTxn s tid (fun tr =>
            { tr with processorUserId := some aid, redeemed := some |t.amount| }))
          t.ownerUserId (-|t.amount|)) ∧
    pointsAfter (processRedemption s aid ar tid true) t.ownerUserId =
      some (u.points - |t.amount|) := by
  have hmain : processRedemption s aid ar tid true =
      .ok ({ t with processorUserId := some aid, redeemed := some |t.amount| },
        updUserPoints
          (updTxn s tid (fun tr =>
            { tr with processorUserId := some aid, redeemed := some |t.amount| }))
          t.ownerUserId (-|t.amount|)) := by
    unfold processRedemption
    rw [if_neg (by simp [hr]), if_neg (by simp)]
    simp only [ht]
    rw [if_neg (by simp [hty]), if_neg (by simp [hproc])]
    simp only [hu]
  refine ⟨hmain, ?_⟩
  rw [hmain]
  have hup : userPoints s t.ownerUserId = some u.points := by
    unfold userPoints
    rw [hu]
    rfl
  simp only [pointsAfter]
  rw [userPoints_updUserPoints_self,
    userPoints_congr (updTxn s tid (fun tr =>
      { tr with processorUserId := some aid, redeemed := some |t.amount| })) s rfl,
    hup]
  simp only [Option.map_some']
  rw [sub_eq_add_neg]

theorem c10_process_redemption_witness :
    (requireRoleOk "cashier" "cashier" = true ∧ findTxn c10S 1 = some c10T ∧
      c10T.ttype = "redemption" ∧ c10T.processorUserId = none ∧
      findUserById c10S c10T.ownerUserId = some c10U ∧
      c10U.points < |c10T.amount|) ∧
    (processRedemption c10S 2 "cashier" 1 true =
      .ok ({ c10T with processorUserId := some 2, redeemed := some |c10T.amount| },
        updUserPoints
          (updTxn c10S 1 (fun tr =>
            { tr with processorUserId := some 2, redeemed := some |c10T.amount| }))
          c10T.ownerUserId (-|c10T.amount|)) ∧
      pointsAfter (processRedemption c10S 2 "cashier" 1 true) c10T.ownerUserId =
        some (c10U.points - |c10T.amount|)) := by
  refine ⟨⟨by decide, by decide, by decide, by decide, by decide, by decide⟩, ?_⟩
  exact c10_process_redemption c10S 2 "cashier" 1 c10T c10U (by decide) (by decide)
    (by decide) (by decide) (by decide)

def c7A : User :=
  { id := 1, utorid := "alice001", email := "alice@utoronto.ca", role := "regular",
    points := 100, verified := true, suspicious := false }

def c7B : User :=
  { id := 2, utorid := "bobb0002", email := "bob@utoronto.ca", role := "regular",
    points := 0, verified := false, suspicious := false }

def c7S : State :=
  { users := [c7A, c7B], promotions := [], transactions := [], events := [],
    nextTxnId := 1 }

/-- transferOutRow is the sender-side transfer row the handler creates. -/
def transferOutRow (s : State) (sid rid : Nat) (am : Int) (rm : String) : Txn :=
  { id := s.nextTxnId, ttype := "transfer", amount := -am,
    spent := none, redeemed := none, suspicious := false,
    ownerUserId := sid, creatorUserId := sid, relatedUserId := some rid,
    relatedTransactionId := none, processorUserId := none, eventId := none,
    promotionIds := [], remark := rm }

/-- transferInRow is the recipient-side transfer row the handler creates. -/
def transferInRow (s : State) (sid rid : Nat) (am : Int) (rm : String) : Txn :=
  { id := s.nextTxnId + 1, ttype := "transfer", amount := am,
    spent := none, redeemed := none, suspicious := false,
    ownerUserId := rid, creatorUserId := sid, relatedUserId := some sid,
    relatedTransactionId := none, processorUserId := none, eventId := none,
    promotionIds := [], remark := rm }

/-- C7: a transfer of a positive amount from a verified sender with
sufficient balance to a distinct existing recipient commits with the sender
decremented and the recipient incremented by the amount, and appends exactly
two transfer rows, one owned by each party, each holding the other party's
id as its related user and the sender as creator. -/
theorem c7_transfer (s : State) (sid rid : Nat) (am : Int) (rm : String)
    (sender recipient : User)
    (hs : findUserById s sid = some sender) (hver : sender.verified = true)
    (hbal : am ≤ sender.points) (hpos : 0 < am) (hne : sid ≠ rid)
    (hrp : findUserById s rid = some recipient) :
    pointsAfter (createTransfer s sid rid "transfer" am rm) sid =
      some (sender.points - am) ∧
    pointsAfter (createTransfer s sid rid "transfer" am rm) rid =
      some (recipient.points + am) ∧
    okVal (createTransfer s sid rid "transfer" am rm) =
      some (transferOutRow s sid rid am rm, transferInRow s sid rid am rm) ∧
    txnsAfter (createTransfer s sid rid "transfer" am rm) =
      some (s.transactions ++
        [transferOutRow s sid rid am rm, transferInRow s sid rid am rm]) := by
  unfold createTransfer
  rw [if_neg (by simp), if_neg (by omega), if_neg hne]
  simp only [hs]
  rw [if_neg (by simp [hver]), if_neg (by omega)]
  simp only [hrp]
  have hupS : userPoints s sid = some sender.points := by
    unfold userPoints; rw [hs]; rfl
  have hupR : userPoints s rid = some recipient.points := by
    unfold userPoints; rw [hrp]; rfl
  simp only [pointsAfter, okVal, txnsAfter]
  refine ⟨?_, ?_, rfl, rfl⟩
  · rw [userPoints_updUserPoints_ne _ rid sid am hne, userPoints_updUserPoints_self]
    unfold userPoints findUserById findBy
    dsimp only
    rw [show List.find? (fun u => u.id == sid) s.users = some sender from hs]
    simp only [Option.map_some']
    rw [sub_eq_add_neg]
  · rw [userPoints_updUserPoints_self, userPoints_updUserPoints_ne _ sid rid (-am)
      (Ne.symm hne)]
    unfold userPoints findUserById findBy
    dsimp only
    rw [show List.find? (fun u => u.id == rid) s.users = some recipient from hrp]
    simp only [Option.map_some']

theorem c7_transfer_witness :
    (findUserById c7S 1 = some c7A ∧ c7A.verified = true ∧ (50 : Int) ≤ c7A.points ∧
      (0 : Int) < 50 ∧ (1 : Nat) ≠ 2 ∧ findUserById c7S 2 = some c7B) ∧
    (pointsAfter (createTransfer c7S 1 2 "transfer" 50 "") 1 =
        some (c7A.points - 50) ∧
      pointsAfter (createTransfer c7S 1 2 "transfer" 50 "") 2 =
        some (c7B.points + 50) ∧
      okVal (createTransfer c7S 1 2 "transfer" 50 "") =
        some (transferOutRow c7S 1 2 50 "", transferInRow c7S 1 2 50 "") ∧
      txnsAfter (createTransfer c7S 1 2 "transfer" 50 "") =
        some (c7S.transactions ++
          [transferOutRow c7S 1 2 50 "", transferInRow c7S 1 2 50 ""])) := by
  refine ⟨⟨by decide, by decide, by decide, by decide, by decide, by decide⟩, ?_⟩
  exact c7_transfer c7S 1 2 50 "" c7A c7B (by decide) (by decide) (by decide)
    (by decide) (by decide) (by decide)

def c3U : User :=
  { id := 2, utorid := "bobb0002", email := "bob@utoronto.ca", role := "regular",
    points := 50, verified := true, suspicious := false }

def c3T : Txn :=
  { id := 1, ttype := "transfer", amount := 50, spent := none, redeemed := none,
    suspicious := false, ownerUserId := 2, creatorUserId := 3,
    relatedUserId := some 3, relatedTransactionId := none, processorUserId := none,
    eventId := none, promotionIds := [], remark := "" }

def c3S : State :=
  { users := [c3U], promotions := [], transactions := [c3T], events := [],
    nextTxnId := 2 }

/-- C3 counterexample: the claim says a suspicious-flag request on a
non-purchase transaction fails and changes nothing, but on this transfer
transaction the handler succeeds and the owner's balance drops from 50 to 0,
because the handler never checks the transaction type. -/
theorem c3_counterexample :
    c3T.ttype ≠ "purchase" ∧
    isOkE (setSuspicious c3S "manager" 1 true) = true ∧
    userPoints c3S 2 = some 50 ∧
    pointsAfter (setSuspicious c3S "manager" 1 true) 2 = some 0 := by
  exact ⟨by decide, by decide, by decide, by decide⟩

/-- C3 amended: the suspicious-flag toggle is not restricted to purchases:
for every existing transaction, of any type, a manager-or-above request
succeeds, stores the new flag, and applies the retroactive balance
adjustment to the owner (credit the stored amount on true-to-false, debit it
on false-to-true, nothing when the value is unchanged). -/
theorem c3_suspicious_any_type (s : State) (ar : String) (tid : Nat) (nv : Bool)
    (t : Txn) (u : User)
    (hr : requireRoleOk "manager" ar = true)
    (ht : findTxn s tid = some t)
    (hu : findUserById s t.ownerUserId = some u) :
    isOkE (setSuspicious s ar tid nv) = true ∧
    okVal (setSuspicious s ar tid nv) = some { t with suspicious := nv } ∧
    (resState (setSuspicious s ar tid nv)).bind (fun s' => findTxn s' tid) =
      some { t with suspicious := nv } ∧
    (resState (setSuspicious s ar tid nv)).bind
        (fun s' => userPoints s' t.ownerUserId) =
      some (u.points + ssDelta t nv) := by
  obtain ⟨s', heq, hft, hfu⟩ := setSuspicious_spec s ar tid nv t u hr ht hu
  rw [heq]
  simp only [resState, isOkE, okVal]
  refine ⟨trivial, trivial, ?_, ?_⟩
  · show findTxn s' tid = _
    exact hft
  · show userPoints s' t.ownerUserId = _
    unfold userPoints
    rw [hfu]
    rfl

theorem c3_suspicious_any_type_witness :
    (requireRoleOk "manager" "manager" = true ∧ findTxn c3S 1 = some c3T ∧
      findUserById c3S c3T.ownerUserId = some c3U) ∧
    (isOkE (setSuspicious c3S "manager" 1 true) = true ∧
      okVal (setSuspicious c3S "manager" 1 true) = some { c3T with suspicious := true } ∧
      (resState (setSuspicious c3S "manager" 1 true)).bind (fun s' => findTxn s' 1) =
        some { c3T with suspicious := true } ∧
      (resState (setSuspicious c3S "manager" 1 true)).bind
          (fun s' => userPoints s' c3T.ownerUserId) =
        some (c3U.points + ssDelta c3T true)) :=
  ⟨⟨by decide, by decide, by decide⟩,
    c3_suspicious_any_type c3S "manager" 1 true c3T c3U (by decide) (by decide)
      (by decide)⟩

/-- C4: for a purchase transaction currently flagged suspicious, toggling the
flag to false and then back to true leaves the stored amount unchanged at
each step and returns the owner's balance exactly to its value before the
two toggles. -/
theorem c4_round_trip (s : State) (tid : Nat) (t : Txn) (u : User)
    (ht : findTxn s tid = some t) (_hty : t.ttype = "purchase")
    (hsusp : t.suspicious = true)
    (hu : findUserById s t.ownerUserId = some u) :
    (resState (setSuspicious s "manager" tid false)).bind
        (fun s1 => (findTxn s1 tid).map Txn.amount) = some t.amount ∧
    (resState (setSuspicious s "manager" tid false)).bind (fun s1 =>
      (resState (setSuspicious s1 "manager" tid true)).bind
        (fun s2 => (findTxn s2 tid).map Txn.amount)) = some t.amount ∧
    (resState (setSuspicious s "manager" tid false)).bind (fun s1 =>
      (resState (setSuspicious s1 "manager" tid true)).bind
        (fun s2 => userPoints s2 t.ownerUserId)) = some u.points := by
  obtain ⟨s1, heq1, hft1, hfu1⟩ :=
    setSuspicious_spec s "manager" tid false t u (by decide) ht hu
  have hu1 : findUserById s1 ({ t with suspicious := false } : Txn).ownerUserId =
      some { u with points := u.points + ssDelta t false } := hfu1
  obtain ⟨s2, heq2, hft2, hfu2⟩ :=
    setSuspicious_spec s1 "manager" tid true { t with suspicious := false }
      { u with points := u.points + ssDelta t false } (by decide) hft1 hu1
  rw [heq1]
  simp only [resState]
  have hd1 : ssDelta t false = t.amount := by
    unfold ssDelta
    rw [if_pos ⟨by simp [hsusp], by simp⟩]
  have hd2 : ssDelta ({ t with suspicious := false } : Txn) true = -t.amount := by
    unfold ssDelta
    rw [if_neg (by simp), if_pos (by simp)]
  refine ⟨?_, ?_, ?_⟩
  · show (findTxn s1 tid).map Txn.amount = some t.amount
    rw [hft1]
    rfl
  · show (resState (setSuspicious s1 "manager" tid true)).bind
        (fun s2 => (findTxn s2 tid).map Txn.amount) = some t.amount
    rw [heq2]
    simp only [resState]
    show (findTxn s2 tid).map Txn.amount = some t.amount
    rw [hft2]
    rfl
  · show (resState (setSuspicious s1 "manager" tid true)).bind
        (fun s2 => userPoints s2 t.ownerUserId) = some u.points
    rw [heq2]
    simp only [resState]
    show userPoints s2 t.ownerUserId = some u.points
    unfold userPoints
    rw [hfu2]
    show some (u.points + ssDelta t false + ssDelta ({ t with suspicious := false } : Txn) true) = some u.points
    rw [hd1, hd2]
    exact congrArg some (by omega)

def c4U : User :=
  { id := 1, utorid := "alice001", email := "alice@utoronto.ca", role := "regular",
    points := 77, verified := true, suspicious := false }

def c4T : Txn :=
  { id := 1, ttype := "purchase", amount := 600, spent := some (150 : ℚ),
    redeemed := none, suspicious := true, ownerUserId := 1, creatorUserId := 2,
    relatedUserId := none, relatedTransactionId := none, processorUserId := none,
    eventId := none, promotionIds := [], remark := "" }

def c4S : State :=
  { users := [c4U], promotions := [], transactions := [c4T], events := [],
    nextTxnId := 2 }

theorem c4_round_trip_witness :
    (findTxn c4S 1 = some c4T ∧ c4T.ttype = "purchase" ∧ c4T.suspicious = true ∧
      findUserById c4S c4T.ownerUserId = some c4U) ∧
    ((resState (setSuspicious c4S "manager" 1 false)).bind
        (fun s1 => (findTxn s1 1).map Txn.amount) = some c4T.amount ∧
      (resState (setSuspicious c4S "manager" 1 false)).bind (fun s1 =>
        (resState (setSuspicious s1 "manager" 1 true)).bind
          (fun s2 => (findTxn s2 1).map Txn.amount)) = some c4T.amount ∧
      (resState (setSuspicious c4S "manager" 1 false)).bind (fun s1 =>
        (resState (setSuspicious s1 "manager" 1 true)).bind
          (fun s2 => userPoints s2 c4T.ownerUserId)) = some c4U.points) :=
  ⟨⟨by rfl, by rfl, by rfl, by rfl⟩,
    c4_round_trip c4S 1 c4T c4U (by rfl) (by rfl) (by rfl) (by rfl)⟩

def c5P : Promotion :=
  { id := 9, ptype := "onetime", startTime := -10, endTime := 10,
    minSpending := none, rate := none, points := some 50, usedBy := [1] }

def c5U : User :=
  { id := 1, utorid := "alice001", email := "alice@utoronto.ca", role := "regular",
    points := 0, verified := true, suspicious := false }

def c5S : State :=
  { users := [c5U], promotions := [c5P], transactions := [], events := [],
    nextTxnId := 1 }

/-- C5: a purchase request that explicitly lists a one-time promotion already
used by the purchasing user fails (the handler returns a 400 error during
the per-promotion validation), so no transaction row is created, no balance
changes and no usage is recorded: the error result carries no committed
state. -/
theorem c5_used_promotion (s : State) (aid : Nat) (ar ut : String) (sp : ℚ)
    (pids : List Nat) (rm : String) (now : Int) (pid : Nat) (p : Promotion)
    (u : User)
    (hpid : pid ∈ pids) (hp : findPromotion s pid = some p)
    (hu : findUserByUtorid s ut = some u) (hused : u.id ∈ p.usedBy) :
    isOkE (createPurchase s aid ar ut sp pids rm now) = false := by
  unfold createPurchase
  by_cases h1 : ¬ (ar ∈ (["cashier", "manager", "superuser"] : List String))
  · rw [if_pos h1]; rfl
  · rw [if_neg h1]
    by_cases h2 : sp ≤ 0
    · rw [if_pos h2]; rfl
    · rw [if_neg h2]
      simp only [hu]
      rcases hc : findUserById s aid with _ | cashier
      · simp only [hc]; rfl
      · simp only [hc]
        have herr := @applyExplicit_err_of_used s u.id sp now pid p hp hused pids hpid
        rcases ha : applyExplicit s u.id sp now pids with ⟨e⟩ | ⟨⟨ext, extIds⟩⟩
        · simp only [ha]; rfl
        · rw [ha] at herr
          simp [isOkE] at herr

theorem c5_used_promotion_witness :
    ((9 : Nat) ∈ [9] ∧ findPromotion c5S 9 = some c5P ∧
      findUserByUtorid c5S "alice001" = some c5U ∧ c5U.id ∈ c5P.usedBy) ∧
    isOkE (createPurchase c5S 2 "cashier" "alice001" (20 : ℚ) [9] "" 0) = false :=
  ⟨⟨by decide, by rfl, by rfl, by decide⟩,
    c5_used_promotion c5S 2 "cashier" "alice001" 20 [9] "" 0 9 c5P c5U
      (by decide) (by rfl) (by rfl) (by decide)⟩

def c2P : Promotion :=
  { id := 7, ptype := "automatic", startTime := -10, endTime := 10,
    minSpending := none, rate := some (1/2 : ℚ), points := none, usedBy := [] }

def c2A : User :=
  { id := 1, utorid := "alice001", email := "alice@utoronto.ca", role := "regular",
    points := 0, verified := true, suspicious := false }

def c2B : User :=
  { id := 2, utorid := "bobb0002", email := "bob@utoronto.ca", role := "cashier",
    points := 0, verified := true, suspicious := false }

def c2S : State :=
  { users := [c2A, c2B], promotions := [c2P], transactions := [], events := [],
    nextTxnId := 1 }

/-- C2: on every successful purchase the stored amount is
Math.round(spent / 0.25) plus, over the qualifying automatic promotions and
the explicitly applied one-time promotions, each promotion's independently
rounded contribution (Math.round(spent / rate) for a truthy rate, plus its
flat points), summed after per-contribution rounding; in particular a
purchase of 100.00 with one active automatic promotion of rate 0.50 stores
amount 600 and credits exactly 600 points to the non-suspicious owner. -/
theorem c2_purchase_points :
    (∀ (s : State) (aid : Nat) (ar ut : String) (sp : ℚ) (pids : List Nat)
        (rm : String) (now : Int) (t : Txn) (s' : State),
        createPurchase s aid ar ut sp pids rm now = .ok (t, s') →
        t.amount = jsRound (sp / (0.25 : ℚ)) +
          ((autoActive s now sp).map (promoContrib sp)).sum +
          explicitContribSum s sp pids) ∧
    (amountAfter (createPurchase c2S 2 "cashier" "alice001" (100 : ℚ) [] "" 0) =
        some 600 ∧
      pointsAfter (createPurchase c2S 2 "cashier" "alice001" (100 : ℚ) [] "" 0) 1 =
        some 600) := by
  refine ⟨?_, ?_, ?_⟩
  · intro s aid ar ut sp pids rm now t s' h
    unfold createPurchase at h
    split_ifs at h with h1 h2
    rcases hu : findUserByUtorid s ut with _ | user
    · simp only [hu] at h
      cases h
    · simp only [hu] at h
      rcases hc : findUserById s aid with _ | cashier
      · simp only [hc] at h
        cases h
      · simp only [hc] at h
        rcases ha : applyExplicit s user.id sp now pids with ⟨e⟩ | ⟨⟨ext, extIds⟩⟩
        · simp only [ha] at h
          cases h
        · simp only [ha] at h
          cases h
          obtain ⟨hz, _⟩ := applyExplicit_ok ha
          show jsRound (sp / (0.25 : ℚ)) +
            List.foldl (fun acc p => acc + promoContrib sp p) 0 (autoActive s now sp) +
              ext = _
          rw [hz, foldl_add_eq_sum (promoContrib sp) (autoActive s now sp) 0]
          omega
  · norm_num [amountAfter, createPurchase, findUserByUtorid, findUserById, findBy,
      List.find?, autoActive, applyExplicit, c2S, c2A, c2B, c2P, jsRound,
      promoContrib, truthyQ, truthyZ, List.filter]
    simp [amountAfter]
  · norm_num [pointsAfter, createPurchase, findUserByUtorid, findUserById, findBy,
      List.find?, autoActive, applyExplicit, c2S, c2A, c2B, c2P, jsRound,
      promoContrib, truthyQ, truthyZ, List.filter]
    simp [userPoints, findUserById, findBy, List.find?, updUserPoints, updBy]

def c2T : Txn :=
  { id := 1, ttype := "purchase", amount := 600, spent := some (100 : ℚ),
    redeemed := none, suspicious := false, ownerUserId := 1, creatorUserId := 2,
    relatedUserId := none, relatedTransactionId := none, processorUserId := none,
    eventId := none, promotionIds := [7], remark := "" }

def c2S2 : State :=
  { users := [{ c2A with points := 600 }, c2B], promotions := [c2P],
    transactions := [c2T], events := [], nextTxnId := 2 }

theorem c2_purchase_points_witness :
    createPurchase c2S 2 "cashier" "alice001" (100 : ℚ) [] "" 0 = .ok (c2T, c2S2) ∧
    c2T.amount = jsRound ((100 : ℚ) / (0.25 : ℚ)) +
      ((autoActive c2S 0 100).map (promoContrib 100)).sum +
      explicitContribSum c2S 100 [] := by
  have hok : createPurchase c2S 2 "cashier" "alice001" (100 : ℚ) [] "" 0 =
      .ok (c2T, c2S2) := by
    norm_num [createPurchase, findUserByUtorid, findUserById, findBy, List.find?,
      autoActive, applyExplicit, c2S, c2A, c2B, c2P, c2T, c2S2, jsRound,
      promoContrib, truthyQ, truthyZ, List.filter, updUserPoints, updBy]
    simp [c2T, c2S2]
  exact ⟨hok,
    c2_purchase_points.1 c2S 2 "cashier" "alice001" 100 [] "" 0 c2T c2S2 hok⟩

theorem validateRoleField_manager_ok {target : User} {sp : Option Bool} {r : String}
    {x : Option String × Option Bool}
    (h : validateRoleField "manager" target sp (some r) = .ok x) :
    r = "cashier" ∨ r = "regular" := by
  simp only [validateRoleField] at h
  split_ifs at h with h1 h2 h3 h4
  · exact Or.inl h3
  · exact Classical.byContradiction fun hn => h2 ⟨trivial, hn⟩

theorem validateRoleField_cashier_err (ar : String) (target : User) (sp : Option Bool)
    (hs : sp.getD target.suspicious = true) :
    validateRoleField ar target sp (some "cashier") =
      .error ⟨400, "Cannot promote suspicious user to cashier"⟩ := by
  simp only [validateRoleField]
  rw [if_pos trivial, if_pos hs, if_neg (by decide), if_neg (by simp)]

/-- C9: when the actor is a manager, a role update can only commit the roles
cashier or regular (manager and superuser are refused), and assigning
cashier is refused whenever the target would be flagged suspicious at commit
time: the requested suspicious value when the request carries one, the
stored flag otherwise. -/
theorem c9_role_update (s : State) (tid : Nat) (target : User)
    (htarget : findUserById s tid = some target) :
    (∀ (em : Option String) (vf sp : Option Bool) (r : String) (s' : State),
        patchUser s "manager" tid em vf sp (some r) = .ok s' →
        r = "cashier" ∨ r = "regular") ∧
    (∀ (em : Option String) (vf sp : Option Bool),
        sp.getD target.suspicious = true →
        isOkE (patchUser s "manager" tid em vf sp (some "cashier")) = false) := by
  constructor
  · intro em vf sp r s' h
    unfold patchUser at h
    rw [if_neg (by decide)] at h
    simp only [htarget] at h
    rcases he : validateEmailField s tid em with ⟨e⟩ | ⟨emailUpd⟩
    · simp only [he] at h
      cases h
    · simp only [he] at h
      rcases hv : validateVerifiedField vf with ⟨e⟩ | ⟨verifiedUpd⟩
      · simp only [hv] at h
        cases h
      · simp only [hv] at h
        rcases hrf : validateRoleField "manager" target sp (some r) with ⟨e⟩ | ⟨x⟩
        · simp only [hrf] at h
          cases h
        · exact validateRoleField_manager_ok hrf
  · intro em vf sp hs
    unfold patchUser
    rw [if_neg (by decide)]
    simp only [htarget]
    rcases he : validateEmailField s tid em with ⟨e⟩ | ⟨emailUpd⟩
    · simp only [he]
      rfl
    · simp only [he]
      rcases hv : validateVerifiedField vf with ⟨e⟩ | ⟨verifiedUpd⟩
      · simp only [hv]
        rfl
      · simp only [hv]
        rw [validateRoleField_cashier_err "manager" target sp hs]
        rfl

def c9U : User :=
  { id := 1, utorid := "carol003", email := "carol@utoronto.ca", role := "regular",
    points := 0, verified := true, suspicious := true }

def c9S : State :=
  { users := [c9U], promotions := [], transactions := [], events := [],
    nextTxnId := 1 }

theorem mem_of_mem_autoActive {s : State} {now : Int} {sp : ℚ} {p : Promotion}
    (hp : p ∈ autoActive s now sp) : p ∈ s.promotions := by
  unfold autoActive at hp
  exact List.mem_of_mem_filter hp

theorem balancesNonneg_congr (X Y : State) (h : X.users = Y.users)
    (hb : balancesNonneg Y) : balancesNonneg X := by
  intro u hu
  rw [h] at hu
  exact hb u hu

def c1A : User :=
  { id := 1, utorid := "alice001", email := "alice@utoronto.ca", role := "regular",
    points := 0, verified := true, suspicious := false }

def c1B : User :=
  { id := 2, utorid := "bobb0002", email := "bob@utoronto.ca", role := "cashier",
    points := 0, verified := true, suspicious := false }

def c1S0 : State :=
  { users := [c1A, c1B], promotions := [], transactions := [], events := [],
    nextTxnId := 1 }

def c1T1 : Txn :=
  { id := 1, ttype := "purchase", amount := 600, spent := some (150 : ℚ),
    redeemed := none, suspicious := false, ownerUserId := 1, creatorUserId := 2,
    relatedUserId := none, relatedTransactionId := none, processorUserId := none,
    eventId := none, promotionIds := [], remark := "" }

def c1S1 : State :=
  { users := [{ c1A with points := 600 }, c1B], promotions := [],
    transactions := [c1T1], events := [], nextTxnId := 2 }

def c1T2 : Txn :=
  { id := 2, ttype := "redemption", amount := -600, spent := none, redeemed := none,
    suspicious := false, ownerUserId := 1, creatorUserId := 1, relatedUserId := none,
    relatedTransactionId := none, processorUserId := none, eventId := none,
    promotionIds := [], remark := "" }

def c1S2 : State := { c1S1 with transactions := [c1T1, c1T2], nextTxnId := 3 }

def c1T2p : Txn := { c1T2 with processorUserId := some 2, redeemed := some 600 }

def c1S3 : State :=
  { users := [{ c1A with points := 0 }, c1B], promotions := [],
    transactions := [c1T1, c1T2p], events := [], nextTxnId := 3 }

def c1T1s : Txn := { c1T1 with suspicious := true }

def c1S4 : State :=
  { users := [{ c1A with points := -600 }, c1B], promotions := [],
    transactions := [c1T1s, c1T2p], events := [], nextTxnId := 3 }

/-- C1 counterexample: a committed sequence of listed operations ends with a
negative balance.  From a fresh store, a cashier records a purchase of
150.00 for alice (600 points), alice requests a 600-point redemption, a
cashier processes it (balance back to 0), and a manager then flags the
purchase suspicious: the false-to-true toggle decrements the owner with no
floor check and the committed balance is -600 < 0, refuting the claimed
invariant. -/
theorem c1_counterexample :
    createPurchase c1S0 2 "cashier" "alice001" (150 : ℚ) [] "" 0 =
      .ok (c1T1, c1S1) ∧
    createRedemptionRequest c1S1 1 "redemption" 600 "" = .ok (c1T2, c1S2) ∧
    processRedemption c1S2 2 "cashier" 2 true = .ok (c1T2p, c1S3) ∧
    setSuspicious c1S3 "manager" 1 true = .ok (c1T1s, c1S4) ∧
    userPoints c1S4 1 = some (-600) ∧ ((-600 : Int) < 0) := by
  refine ⟨?_, by rfl, by rfl, by rfl, by rfl, by decide⟩
  norm_num [createPurchase, findUserByUtorid, findUserById, findBy, List.find?,
    autoActive, applyExplicit, c1S0, c1S1, c1A, c1B, c1T1, jsRound, promoContrib,
    truthyQ, truthyZ, List.filter, updUserPoints, updBy]
  simp [c1T1, c1S1, c1A, c1B]

/-- C1 amended: the nonnegative-balance invariant is preserved by the
operations that check the balance or only add points, purchase creation,
redemption request, transfer, and event award; it is not an invariant of
the full operation set, because the suspicious-flag toggle (see the
counterexample), redemption processing and negative adjustments decrement
with no floor check. -/
theorem c1_nonneg_preserved (s : State)
    (hnn : balancesNonneg s) (hnd : usersNodup s) (hwf : promosWF s) :
    (∀ (aid : Nat) (ar ut : String) (sp : ℚ) (pids : List Nat) (rm : String)
        (now : Int) (t : Txn) (s' : State),
        createPurchase s aid ar ut sp pids rm now = .ok (t, s') →
        balancesNonneg s') ∧
    (∀ (aid : Nat) (ty : String) (am : Int) (rm : String) (t : Txn) (s' : State),
        createRedemptionRequest s aid ty am rm = .ok (t, s') →
        balancesNonneg s') ∧
    (∀ (aid rid : Nat) (ty : String) (am : Int) (rm : String) (r : Txn × Txn)
        (s' : State),
        createTransfer s aid rid ty am rm = .ok (r, s') → balancesNonneg s') ∧
    (∀ (aid : Nat) (ar : String) (eid : Nat) (ty : String) (ut : Option String)
        (am : Int) (rm : String) (ts : List Txn) (s' : State),
        createEventTransaction s aid ar eid ty ut am rm = .ok (ts, s') →
        balancesNonneg s') := by
  refine ⟨?_, ?_, ?_, ?_⟩
  · intro aid ar ut sp pids rm now t s' h
    unfold createPurchase at h
    split_ifs at h with h1 h2
    rcases hu : findUserByUtorid s ut with _ | user
    · simp only [hu] at h
      cases h
    · simp only [hu] at h
      rcases hc : findUserById s aid with _ | cashier
      · simp only [hc] at h
        cases h
      · simp only [hc] at h
        rcases ha : applyExplicit s user.id sp now pids with ⟨e⟩ | ⟨⟨ext, extIds⟩⟩
        · simp only [ha] at h
          cases h
        · simp only [ha] at h
          cases h
          have hsp : 0 < sp := not_le.mp h2
          by_cases hcs : cashier.suspicious = true
          · rw [if_pos hcs]
            exact fun u hu => hnn u hu
          · rw [if_neg hcs]
            have hbase : 0 ≤ jsRound (sp / (0.25 : ℚ)) :=
              jsRound_nonneg (div_nonneg hsp.le (by norm_num))
            have hauto : 0 ≤ List.foldl (fun acc p => acc + promoContrib sp p) 0
                (autoActive s now sp) :=
              foldl_contrib_nonneg sp _
                (fun p hp => promoContrib_nonneg hsp (hwf p (mem_of_mem_autoActive hp)))
                0 le_rfl
            have hext : 0 ≤ ext := applyExplicit_ok_nonneg hsp hwf ha
            have hb : balancesNonneg (updUserPoints s user.id
                (jsRound (sp / (0.25 : ℚ)) +
                  List.foldl (fun acc p => acc + promoContrib sp p) 0
                    (autoActive s now sp) + ext)) := by
              refine nonneg_updUserPoints _ _ _ hnn ?_
              intro u hu _
              have := hnn u hu
              omega
            refine balancesNonneg_congr _ _
              (foldl_users_eq (fun (st : State) (pid : Nat) => connectUsedBy st pid user.id)
                (fun st b => rfl) _ _) ?_
            exact fun u hu => hb u hu
  · intro aid ty am rm t s' h
    unfold createRedemptionRequest at h
    split_ifs at h with h1 h2
    rcases hu : findUserById s aid with _ | user
    · simp only [hu] at h
      cases h
    · simp only [hu] at h
      split_ifs at h with h3 h4
      cases h
      exact fun u hu => hnn u hu
  · intro aid rid ty am rm r s' h
    unfold createTransfer at h
    split_ifs at h with h1 h2 h3
    rcases hs : findUserById s aid with _ | sender
    · simp only [hs] at h
      cases h
    · simp only [hs] at h
      split_ifs at h with h4 h5
      rcases hr : findUserById s rid with _ | recipient
      · simp only [hr] at h
        cases h
      · simp only [hr] at h
        cases h
        have hpos : 0 < am := not_le.mp h2
        have hbal : ¬ (sender.points < am) := h5
        have hb1 : balancesNonneg (updUserPoints s aid (-am)) := by
          refine nonneg_updUserPoints _ _ _ hnn ?_
          intro u hu hui
          have he : u = sender := findBy_unique hnd hs hu hui
          subst he
          omega
        have hb2 : balancesNonneg (updUserPoints (updUserPoints s aid (-am)) rid am) := by
          refine nonneg_updUserPoints _ _ _ hb1 ?_
          intro u hu _
          have := hb1 u hu
          omega
        exact fun u hu => hb2 u hu
  · intro aid ar eid ty ut am rm ts s' h
    unfold createEventTransaction at h
    by_cases hty : ty ≠ "event"
    · rw [if_pos hty] at h
      cases h
    · rw [if_neg hty] at h
      by_cases ham : am ≤ 0
      · rw [if_pos ham] at h
        cases h
      · rw [if_neg ham] at h
        rcases hev : findEvent s eid with _ | ev
        · simp only [hev] at h
          cases h
        · simp only [hev] at h
          by_cases hperm : ¬ ((ar = "manager" ∨ ar = "superuser") ∨ aid ∈ ev.organizers)
          · rw [if_pos hperm] at h
            cases h
          · rw [if_neg hperm] at h
            by_cases htru : truthyStr ut = true
            · rw [if_pos htru] at h
              rcases hu : findUserByUtorid s (ut.getD "") with _ | user
              · simp only [hu] at h
                cases h
              · simp only [hu] at h
                by_cases hguest : ¬ (user.id ∈ ev.guests)
                · rw [if_pos hguest] at h
                  cases h
                · rw [if_neg hguest] at h
                  by_cases hrem : ev.pointsTotal - ev.pointsAwarded < am
                  · rw [if_pos hrem] at h
                    cases h
                  · rw [if_neg hrem] at h
                    cases h
                    have hgt : 0 < am := not_le.mp ham
                    have hb : balancesNonneg (updUserPoints s user.id am) := by
                      refine nonneg_updUserPoints _ _ _ hnn ?_
                      intro u hu _
                      have := hnn u hu
                      omega
                    exact fun u hu => hb u hu
            · rw [if_neg htru] at h
              by_cases hrem : ev.pointsTotal - ev.pointsAwarded < am * ev.guests.length
              · rw [if_pos hrem] at h
                cases h
              · rw [if_neg hrem] at h
                rcases haw : awardGuests am aid eid rm ev.guests s with ⟨sF, ts0⟩
                simp only [haw] at h
                cases h
                have hgt : 0 < am := not_le.mp ham
                have hbF := awardGuests_users_nonneg am aid eid rm ev.guests s hnn hgt.le
                rw [haw] at hbF
                exact fun u hu => hbF u hu

def c1wA : User :=
  { id := 1, utorid := "alice001", email := "alice@utoronto.ca", role := "regular",
    points := 30, verified := true, suspicious := false }

def c1wB : User :=
  { id := 2, utorid := "bobb0002", email := "bob@utoronto.ca", role := "regular",
    points := 0, verified := true, suspicious := false }

def c1wS : State :=
  { users := [c1wA, c1wB], promotions := [], transactions := [], events := [],
    nextTxnId := 1 }

theorem c1_nonneg_preserved_witness :
    (balancesNonneg c1wS ∧ usersNodup c1wS ∧ promosWF c1wS) ∧
    ((∀ (aid : Nat) (ar ut : String) (sp : ℚ) (pids : List Nat) (rm : String)
        (now : Int) (t : Txn) (s' : State),
        createPurchase c1wS aid ar ut sp pids rm now = .ok (t, s') →
        balancesNonneg s') ∧
      (∀ (aid : Nat) (ty : String) (am : Int) (rm : String) (t : Txn) (s' : State),
        createRedemptionRequest c1wS aid ty am rm = .ok (t, s') →
        balancesNonneg s') ∧
      (∀ (aid rid : Nat) (ty : String) (am : Int) (rm : String) (r : Txn × Txn)
          (s' : State),
        createTransfer c1wS aid rid ty am rm = .ok (r, s') → balancesNonneg s') ∧
      (∀ (aid : Nat) (ar : String) (eid : Nat) (ty : String) (ut : Option String)
          (am : Int) (rm : String) (ts : List Txn) (s' : State),
        createEventTransaction c1wS aid ar eid ty ut am rm = .ok (ts, s') →
        balancesNonneg s')) :=
  ⟨⟨by unfold balancesNonneg; decide, by unfold usersNodup; decide,
      by unfold promosWF; decide⟩,
    c1_nonneg_preserved c1wS (by unfold balancesNonneg; decide)
      (by unfold usersNodup; decide) (by unfold promosWF; decide)⟩

def c6U : User :=
  { id := 1, utorid := "alice001", email := "alice@utoronto.ca", role := "regular",
    points := 0, verified := true, suspicious := false }

def c6E : Event :=
  { id := 1, pointsTotal := 100, pointsAwarded := 80, organizers := [], guests := [1] }

def c6S : State :=
  { users := [c6U], promotions := [], transactions := [], events := [c6E],
    nextTxnId := 1 }

/-- C6: every committed event transaction preserves pointsAwarded less than
or equal to pointsTotal for the target event; an award whose total (the
amount for a single guest, the amount times the guest count for the
broadcast form) exceeds the remaining budget fails before any write, the
error result carrying no committed state; in particular awarding 30 with
pointsTotal 100 and pointsAwarded 80 fails. -/
theorem c6_event_budget :
    (∀ (s : State) (aid : Nat) (ar : String) (eid : Nat) (ty : String)
        (ut : Option String) (am : Int) (rm : String) (ts : List Txn) (s' : State)
        (ev : Event),
        findEvent s eid = some ev → ev.pointsAwarded ≤ ev.pointsTotal →
        createEventTransaction s aid ar eid ty ut am rm = .ok (ts, s') →
        ∀ ev', findEvent s' eid = some ev' →
          ev'.pointsAwarded ≤ ev'.pointsTotal) ∧
    (∀ (s : State) (aid : Nat) (ar : String) (eid : Nat) (ut : Option String)
        (am : Int) (rm : String) (ev : Event),
        findEvent s eid = some ev → truthyStr ut = true →
        ev.pointsTotal - ev.pointsAwarded < am →
        isOkE (createEventTransaction s aid ar eid "event" ut am rm) = false) ∧
    (∀ (s : State) (aid : Nat) (ar : String) (eid : Nat) (am : Int) (rm : String)
        (ev : Event),
        findEvent s eid = some ev →
        ev.pointsTotal - ev.pointsAwarded < am * ev.guests.length →
        isOkE (createEventTransaction s aid ar eid "event" none am rm) = false) ∧
    isOkE (createEventTransaction c6S 3 "manager" 1 "event" (some "alice001") 30 "") =
      false := by
  refine ⟨?_, ?_, ?_, by decide⟩
  · intro s aid ar eid ty ut am rm ts s' ev hev _hbud h
    unfold createEventTransaction at h
    by_cases hty : ty ≠ "event"
    · rw [if_pos hty] at h
      cases h
    · rw [if_neg hty] at h
      by_cases ham : am ≤ 0
      · rw [if_pos ham] at h
        cases h
      · rw [if_neg ham] at h
        simp only [hev] at h
        by_cases hperm : ¬ ((ar = "manager" ∨ ar = "superuser") ∨ aid ∈ ev.organizers)
        · rw [if_pos hperm] at h
          cases h
        · rw [if_neg hperm] at h
          by_cases htru : truthyStr ut = true
          · rw [if_pos htru] at h
            rcases hu : findUserByUtorid s (ut.getD "") with _ | user
            · simp only [hu] at h
              cases h
            · simp only [hu] at h
              by_cases hguest : ¬ (user.id ∈ ev.guests)
              · rw [if_pos hguest] at h
                cases h
              · rw [if_neg hguest] at h
                by_cases hrem : ev.pointsTotal - ev.pointsAwarded < am
                · rw [if_pos hrem] at h
                  cases h
                · rw [if_neg hrem] at h
                  cases h
                  intro ev' hev'
                  rw [findEvent_updEvent_self _ eid
                    (fun e => { e with pointsAwarded := e.pointsAwarded + am })
                    (fun e => rfl)] at hev'
                  have hev2 : (findEvent s eid).map
                      (fun e => { e with pointsAwarded := e.pointsAwarded + am }) =
                      some ev' := hev'
                  rw [hev] at hev2
                  simp only [Option.map_some'] at hev2
                  cases hev2
                  show ev.pointsAwarded + am ≤ ev.pointsTotal
                  omega
          · rw [if_neg htru] at h
            by_cases hrem : ev.pointsTotal - ev.pointsAwarded < am * ev.guests.length
            · rw [if_pos hrem] at h
              cases h
            · rw [if_neg hrem] at h
              rcases haw : awardGuests am aid eid rm ev.guests s with ⟨sF, ts0⟩
              simp only [haw] at h
              cases h
              intro ev' hev'
              have hse : sF.events = s.events := by
                have hh := awardGuests_events am aid eid rm ev.guests s
                rw [haw] at hh
                exact hh
              rw [findEvent_updEvent_self _ eid
                  (fun e => { e with
                    pointsAwarded := e.pointsAwarded + am * ev.guests.length })
                  (fun e => rfl),
                findEvent_congr sF s hse eid, hev] at hev'
              simp only [Option.map_some'] at hev'
              cases hev'
              show ev.pointsAwarded + am * ev.guests.length ≤ ev.pointsTotal
              have hle := not_lt.mp hrem
              linarith
  · intro s aid ar eid ut am rm ev hev htru hlt
    unfold createEventTransaction
    rw [if_neg (by simp)]
    by_cases ham : am ≤ 0
    · rw [if_pos ham]
      rfl
    · rw [if_neg ham]
      simp only [hev]
      by_cases hperm : ¬ ((ar = "manager" ∨ ar = "superuser") ∨ aid ∈ ev.organizers)
      · rw [if_pos hperm]
        rfl
      · rw [if_neg hperm, if_pos htru]
        rcases hu : findUserByUtorid s (ut.getD "") with _ | user
        · simp only [hu]
          rfl
        · simp only [hu]
          by_cases hguest : ¬ (user.id ∈ ev.guests)
          · rw [if_pos hguest]
            rfl
          · rw [if_neg hguest, if_pos hlt]
            rfl
  · intro s aid ar eid am rm ev hev hlt
    unfold createEventTransaction
    rw [if_neg (by simp)]
    by_cases ham : am ≤ 0
    · rw [if_pos ham]
      rfl
    · rw [if_neg ham]
      simp only [hev]
      by_cases hperm : ¬ ((ar = "manager" ∨ ar = "superuser") ∨ aid ∈ ev.organizers)
      · rw [if_pos hperm]
        rfl
      · rw [if_neg hperm, if_neg (by decide : ¬ (truthyStr none = true)), if_pos hlt]
        rfl

theorem c6_event_budget_witness :
    (findEvent c6S 1 = some c6E ∧ truthyStr (some "alice001") = true ∧
      c6E.pointsTotal - c6E.pointsAwarded < 30) ∧
    isOkE (createEventTransaction c6S 3 "manager" 1 "event" (some "alice001") 30 "") =
      false :=
  ⟨⟨by decide, by decide, by decide⟩,
    c6_event_budget.2.1 c6S 3 "manager" 1 (some "alice001") 30 "" c6E (by decide)
      (by decide) (by decide)⟩

theorem c9_role_update_witness :
    (findUserById c9S 1 = some c9U) ∧
    ((∀ (em : Option String) (vf sp : Option Bool) (r : String) (s' : State),
        patchUser c9S "manager" 1 em vf sp (some r) = .ok s' →
        r = "cashier" ∨ r = "regular") ∧
      (∀ (em : Option String) (vf sp : Option Bool),
        sp.getD c9U.suspicious = true →
        isOkE (patchUser c9S "manager" 1 em vf sp (some "cashier")) = false)) :=
  ⟨by decide, c9_role_update c9S 1 c9U (by decide)⟩

end Pay2Win
